import Mathlib

/- Shallow embedding of the game-orbits library (src/src/constants.rs, body.rs,
   elements.rs, database.rs).  Floating-point values of the Rust source are
   modelled as exact real numbers; Rust panics (unwrap on a missing handle or
   a missing parent) are modelled by an Option result, with none standing for
   the panic; potentially diverging recursions (parent chains may be cyclic in
   an arbitrary database) take an explicit fuel argument, with none returned
   when the fuel runs out. -/

namespace GameOrbits

open Real

/- constants.rs -/

/-- Gravitational constant G, from constants.rs (CONST_GRAVITATION). -/
def CONST_G : ℝ := 6.6743015e-11

/-- Degrees-to-radians conversion factor TAU / 360, from constants.rs. -/
noncomputable def CONVERT_DEG_TO_RAD : ℝ := (2 * Real.pi) / 360

/- elements.rs -/

/-- One pass of the angle-normalization loop appearing in the angle setters of
elements.rs and in DatabaseEntry::with_mean_anomaly_deg (database.rs):
`while value > circle { value -= circle }` with `circle = 360.0`. -/
noncomputable def subTurns360 (x : ℝ) : ℝ :=
  if h : 360 < x then subTurns360 (x - 360) else x
termination_by (⌈x / 360⌉).toNat
decreasing_by
  have h360 : (360:ℝ) ≠ 0 := by norm_num
  have hc : ⌈(x - 360) / 360⌉ = ⌈x / 360⌉ - 1 := by
    rw [sub_div, div_self h360]
    exact Int.ceil_sub_one _
  have h2 : (1:ℤ) < ⌈x / 360⌉ := by
    rw [Int.lt_ceil]
    push_cast
    rw [lt_div_iff₀ (by norm_num : (0:ℝ) < 360)]
    linarith
  omega

/-- Keplerian elements, from elements.rs. -/
structure OrbitalElements where
  semimajor_axis : ℝ
  eccentricity : ℝ
  inclination : ℝ
  arg_of_periapsis : ℝ
  time_of_periapsis_passage : ℝ
  long_of_ascending_node : ℝ

/-- OrbitalElements::default (elements.rs): all fields zero. -/
def OrbitalElements.default : OrbitalElements := ⟨0, 0, 0, 0, 0, 0⟩

/-- OrbitalElements::with_inclination_deg (elements.rs): converts the input to
radians, then repeatedly subtracts 360 while the stored value exceeds 360. -/
noncomputable def OrbitalElements.with_inclination_deg
    (self : OrbitalElements) (deg : ℝ) : OrbitalElements :=
  { self with inclination := subTurns360 (deg * CONVERT_DEG_TO_RAD) }

/-- OrbitalElements::with_arg_of_periapsis_deg (elements.rs). -/
noncomputable def OrbitalElements.with_arg_of_periapsis_deg
    (self : OrbitalElements) (deg : ℝ) : OrbitalElements :=
  { self with arg_of_periapsis := subTurns360 (deg * CONVERT_DEG_TO_RAD) }

/-- OrbitalElements::with_long_of_ascending_node_deg (elements.rs). -/
noncomputable def OrbitalElements.with_long_of_ascending_node_deg
    (self : OrbitalElements) (deg : ℝ) : OrbitalElements :=
  { self with long_of_ascending_node := subTurns360 (deg * CONVERT_DEG_TO_RAD) }

/- body.rs -/

/-- A body in space represented as an idealized sphere, from body.rs. -/
structure Body where
  mass_kg : ℝ
  radius_equator_km : ℝ
  radius_polar_km : ℝ
  axial_tilt_deg : ℝ

/-- Body::default (body.rs): every field zero. -/
def Body.default : Body := ⟨0, 0, 0, 0⟩

/-- Body::gm (body.rs): mass times the gravitational constant. -/
def Body.gm (b : Body) : ℝ := b.mass_kg * CONST_G

/-- Body::distance_of_gravity (body.rs): sqrt((G * m) / gravity). -/
noncomputable def Body.distance_of_gravity (b : Body) (gravity : ℝ) : ℝ :=
  Real.sqrt ((CONST_G * b.mass_kg) / gravity)

/-- Body::axial_tilt_rad (body.rs). -/
noncomputable def Body.axial_tilt_rad (b : Body) : ℝ :=
  b.axial_tilt_deg * CONVERT_DEG_TO_RAD

/- nalgebra vectors and rotations, as used by database.rs -/

/-- A 3-component vector (nalgebra Vector3 at the precision of the model). -/
structure Vec3 where
  x : ℝ
  y : ℝ
  z : ℝ

def Vec3.add (a b : Vec3) : Vec3 := ⟨a.x + b.x, a.y + b.y, a.z + b.z⟩

def Vec3.sub (a b : Vec3) : Vec3 := ⟨a.x - b.x, a.y - b.y, a.z - b.z⟩

def Vec3.smul (c : ℝ) (v : Vec3) : Vec3 := ⟨c * v.x, c * v.y, c * v.z⟩

def Vec3.dot (a b : Vec3) : ℝ := a.x * b.x + a.y * b.y + a.z * b.z

def Vec3.cross (a b : Vec3) : Vec3 :=
  ⟨a.y * b.z - a.z * b.y, a.z * b.x - a.x * b.z, a.x * b.y - a.y * b.x⟩

/-- Vector3::new(0,0,0). -/
def Vec3.zeroV : Vec3 := ⟨0, 0, 0⟩

instance : Add Vec3 := ⟨Vec3.add⟩

instance : Sub Vec3 := ⟨Vec3.sub⟩

def Vec3.normSq (v : Vec3) : ℝ := v.x ^ 2 + v.y ^ 2 + v.z ^ 2

noncomputable def Vec3.norm (v : Vec3) : ℝ := Real.sqrt v.normSq

/-- Rodrigues rotation of v by the given angle around the unit axis k. -/
noncomputable def rodrigues (k : Vec3) (angle : ℝ) (v : Vec3) : Vec3 :=
  Vec3.add
    (Vec3.add (Vec3.smul (Real.cos angle) v)
      (Vec3.smul (Real.sin angle) (Vec3.cross k v)))
    (Vec3.smul ((1 - Real.cos angle) * Vec3.dot k v) k)

/-- nalgebra Rotation3::new(w): rotation by the angle |w| around the axis
w/|w|, the identity when w is the zero vector. -/
noncomputable def Rotation3.new (w : Vec3) (v : Vec3) : Vec3 :=
  if w.norm = 0 then v else rodrigues (Vec3.smul (w.norm)⁻¹ w) w.norm v

/- database.rs: entries and the database -/

/-- One database record, from database.rs (struct DatabaseEntry). -/
structure DatabaseEntry (H : Type) where
  parent : Option H
  name : String
  info : Body
  orbit : Option OrbitalElements
  mean_anomaly_at_epoch : ℝ
  scale : ℝ

/-- DatabaseEntry::new (database.rs): no parent, no orbit, zero mean anomaly,
scale 1/3000000. -/
noncomputable def DatabaseEntry.new {H : Type} (info : Body) (name : String) : DatabaseEntry H :=
  ⟨none, name, info, none, 0, 1 / 3000000⟩

/-- DatabaseEntry::with_parent (database.rs). -/
def DatabaseEntry.with_parent {H : Type} (self : DatabaseEntry H)
    (parent_handle : H) (orbital_elements : OrbitalElements) : DatabaseEntry H :=
  { self with parent := some parent_handle, orbit := some orbital_elements }

/-- DatabaseEntry::with_scale (database.rs). -/
def DatabaseEntry.with_scale {H : Type} (self : DatabaseEntry H) (scale : ℝ) :
    DatabaseEntry H :=
  { self with scale := scale }

/-- DatabaseEntry::with_mean_anomaly_deg (database.rs): converts to radians
then repeatedly subtracts 360 while the stored value exceeds 360. -/
noncomputable def DatabaseEntry.with_mean_anomaly_deg {H : Type}
    (self : DatabaseEntry H) (mean_anomaly : ℝ) : DatabaseEntry H :=
  { self with mean_anomaly_at_epoch := subTurns360 (mean_anomaly * CONVERT_DEG_TO_RAD) }

/-- DatabaseEntry::gm (database.rs). -/
def DatabaseEntry.gm {H : Type} (e : DatabaseEntry H) : ℝ := e.info.gm

/-- The handle-to-entry map of database.rs (struct Database), with the HashMap
modelled as an association list. -/
structure Database (H : Type) where
  bodies : List (H × DatabaseEntry H)

/-- HashMap::get on the association list. -/
def lookupAssoc {H : Type} [DecidableEq H] :
    List (H × DatabaseEntry H) → H → Option (DatabaseEntry H)
  | [], _ => none
  | (k, v) :: rest, h => if k = h then some v else lookupAssoc rest h

/-- HashMap::insert on the association list: replaces the binding of an
existing key, appends a new binding otherwise. -/
def insertAssoc {H : Type} [DecidableEq H] :
    List (H × DatabaseEntry H) → H → DatabaseEntry H → List (H × DatabaseEntry H)
  | [], h, e => [(h, e)]
  | (k, v) :: rest, h, e =>
      if k = h then (h, e) :: rest else (k, v) :: insertAssoc rest h e

/-- Database::add_entry (database.rs): self.bodies.insert(handle, entry). -/
def Database.add_entry {H : Type} [DecidableEq H] (db : Database H) (handle : H)
    (entry : DatabaseEntry H) : Database H :=
  ⟨insertAssoc db.bodies handle entry⟩

/-- Database::get_entry (database.rs): self.bodies.get(handle).unwrap(), the
panic modelled as none. -/
def Database.get_entry {H : Type} [DecidableEq H] (db : Database H) (handle : H) :
    Option (DatabaseEntry H) :=
  lookupAssoc db.bodies handle

/-- Database::default (database.rs): an empty map. -/
def Database.default (H : Type) : Database H := ⟨[]⟩

/- database.rs: the algorithmic core -/

/-- The second-order equation-of-center series used by
Database::position_at_mean_anomaly (database.rs):
nu = M + 2 e sin M + 1.25 e^2 sin (2 M). -/
noncomputable def trueAnomaly (e M : ℝ) : ℝ :=
  M + 2 * e * Real.sin M + 1.25 * e ^ 2 * Real.sin (2 * M)

/-- Database::position_at_mean_anomaly (database.rs).  none models the panic
on a missing handle, a missing parent handle or a missing parent entry. -/
noncomputable def Database.position_at_mean_anomaly {H : Type} [DecidableEq H]
    (db : Database H) (handle : H) (mean_anomaly : ℝ) : Option Vec3 :=
  match lookupAssoc db.bodies handle with
  | none => none
  | some orbiting_body =>
    match orbiting_body.orbit with
    | none => some Vec3.zeroV
    | some orbit =>
      match orbiting_body.parent with
      | none => none
      | some parent_handle =>
        match lookupAssoc db.bodies parent_handle with
        | none => none
        | some parent =>
          let x_axis : Vec3 := ⟨1, 0, 0⟩
          let y_axis : Vec3 := ⟨0, 1, 0⟩
          let parent_up : Vec3 :=
            Rotation3.new (Vec3.smul parent.info.axial_tilt_rad x_axis) y_axis
          let true_anomaly := trueAnomaly orbit.eccentricity mean_anomaly
          let radius := orbit.semimajor_axis * (1 - orbit.eccentricity ^ 2) /
            (1 + orbit.eccentricity * Real.cos true_anomaly)
          let rot_true_anomaly := Rotation3.new (Vec3.smul true_anomaly parent_up)
          let rot_long_of_ascending_node :=
            Rotation3.new (Vec3.smul orbit.long_of_ascending_node parent_up)
          let dir_ascending_node := rot_long_of_ascending_node x_axis
          let dir_normal := Vec3.cross x_axis dir_ascending_node
          let rot_inclination := Rotation3.new (Vec3.smul orbit.inclination dir_ascending_node)
          let rot_arg_of_periapsis := Rotation3.new (Vec3.smul orbit.arg_of_periapsis dir_normal)
          some (Vec3.smul radius
            (rot_inclination (rot_arg_of_periapsis (rot_true_anomaly x_axis))))

/-- Database::mean_anomaly_at_time (database.rs): for an entry with a parent,
mean_anomaly_at_epoch + sqrt(parent.gm / a^3) * time; 0 for a root. -/
noncomputable def Database.mean_anomaly_at_time {H : Type} [DecidableEq H]
    (db : Database H) (handle : H) (time : ℝ) : Option ℝ :=
  match db.get_entry handle with
  | none => none
  | some orbiting_entry =>
    match orbiting_entry.parent with
    | none => some 0
    | some parent_handle =>
      match orbiting_entry.orbit with
      | none => none
      | some orbit =>
        match db.get_entry parent_handle with
        | none => none
        | some parent_entry =>
          some (orbiting_entry.mean_anomaly_at_epoch +
            Real.sqrt (parent_entry.gm / orbit.semimajor_axis ^ 3) * time)

/-- Database::position_at_time (database.rs). -/
noncomputable def Database.position_at_time {H : Type} [DecidableEq H]
    (db : Database H) (handle : H) (time : ℝ) : Option Vec3 :=
  match lookupAssoc db.bodies handle with
  | none => none
  | some orbiting_body =>
    if orbiting_body.orbit.isSome then
      match db.mean_anomaly_at_time handle time with
      | none => none
      | some mean_anomaly => db.position_at_mean_anomaly handle mean_anomaly
    else some Vec3.zeroV

/-- Database::absolute_position_at_time (database.rs): recursion through the
parent chain, with fuel bounding the recursion depth (none when exhausted).
A handle absent from the map yields the zero vector (the code's else branch). -/
noncomputable def Database.absolute_position_at_time {H : Type} [DecidableEq H]
    (fuel : Nat) (db : Database H) (handle : H) (time : ℝ) : Option Vec3 :=
  match fuel with
  | 0 => none
  | f + 1 =>
    match lookupAssoc db.bodies handle with
    | none => some Vec3.zeroV
    | some entry =>
      match entry.parent with
      | some parent_handle =>
        match Database.absolute_position_at_time f db parent_handle time with
        | none => none
        | some parent_position =>
          match db.position_at_time handle time with
          | none => none
          | some p => some (Vec3.add p parent_position)
      | none =>
        match db.position_at_time handle time with
        | none => none
        | some p => some (Vec3.add p Vec3.zeroV)

/-- Database::get_satellites (database.rs): handles of the entries whose
parent is the given body, sorted ascending. -/
def Database.get_satellites {H : Type} [LinearOrder H] (db : Database H)
    (body : H) : List H :=
  List.insertionSort (fun a b => a ≤ b)
    ((db.bodies.filter (fun p => p.2.parent = some body)).map (fun p => p.1))

/-- The recursion of Database::get_combined_mass_kg (database.rs): a body's
own mass plus, accumulated left to right, the combined mass of each of its
satellites.  Sum.inl starts a body, Sum.inr runs the satellite loop with its
accumulator; every step consumes fuel so the recursion is structural. -/
def cmGo {H : Type} [LinearOrder H] (db : Database H) :
    Nat → Sum H (List H × ℝ) → Option ℝ
  | 0, _ => none
  | f + 1, Sum.inl body =>
    match lookupAssoc db.bodies body with
    | none => none
    | some body_entry => cmGo db f (Sum.inr (db.get_satellites body, body_entry.info.mass_kg))
  | _ + 1, Sum.inr ([], total_mass) => some total_mass
  | f + 1, Sum.inr (satellite_handle :: rest, total_mass) =>
    match cmGo db f (Sum.inl satellite_handle) with
    | none => none
    | some m => cmGo db f (Sum.inr (rest, total_mass + m))

/-- Database::get_combined_mass_kg (database.rs), with fuel. -/
def Database.get_combined_mass_kg {H : Type} [LinearOrder H] (fuel : Nat)
    (db : Database H) (body : H) : Option ℝ :=
  cmGo db fuel (Sum.inl body)

/-- Database::radius_soi (database.rs): a * (combined mass / parent mass)^(2/5)
for an orbiting body, distance_of_gravity(0.0000005) for a root. -/
noncomputable def Database.radius_soi {H : Type} [LinearOrder H] (fuel : Nat)
    (db : Database H) (handle : H) : Option ℝ :=
  match lookupAssoc db.bodies handle with
  | none => none
  | some orbiting_body =>
    match db.get_combined_mass_kg fuel handle with
    | none => none
    | some orbiting_body_mass =>
      match orbiting_body.orbit with
      | some orbit =>
        match orbiting_body.parent with
        | none => none
        | some parent_handle =>
          match lookupAssoc db.bodies parent_handle with
          | none => none
          | some parent_body =>
            some (orbit.semimajor_axis *
              Real.rpow (orbiting_body_mass / parent_body.info.mass_kg) (2 / 5))
      | none => some (orbiting_body.info.distance_of_gravity 0.0000005)

/-- Database::get_parents (database.rs): the ancestor chain, root first, the
queried handle last; fuel bounds the recursion depth. -/
def Database.get_parents {H : Type} [DecidableEq H] (fuel : Nat)
    (db : Database H) (body : H) : Option (List H) :=
  match fuel with
  | 0 => none
  | f + 1 =>
    match db.get_entry body with
    | none => none
    | some body_entry =>
      match body_entry.parent with
      | none => some [body]
      | some parent_handle =>
        match Database.get_parents f db parent_handle with
        | none => none
        | some heirarchy => some (heirarchy ++ [body])

/-- The loop of Rust slice::binary_search_by: no early exit on an equal
comparison; the final probe decides.  An out-of-range probe (impossible for
the in-range calls made below) compares equal.  Each iteration shrinks size by
at least one, so running the loop with fuel = size never exhausts the fuel;
fuel is structural so the function evaluates by reduction. -/
def bsGo {H : Type} [LinearOrder H] (l : List H) (key : H) :
    Nat → Nat → Nat → Sum Nat Nat
  | 0, base, _ =>
    if l.getD base key = key then Sum.inl base
    else Sum.inr (base + if l.getD base key < key then 1 else 0)
  | f + 1, base, size =>
    if 1 < size then
      bsGo l key f
        (if key < l.getD (base + size / 2) key then base else base + size / 2)
        (size - size / 2)
    else
      if l.getD base key = key then Sum.inl base
      else Sum.inr (base + if l.getD base key < key then 1 else 0)

/-- Rust slice::binary_search (database.rs uses it on the parent heirarchy):
Sum.inl is Ok (found index), Sum.inr is Err (insertion point). -/
def binarySearch {H : Type} [LinearOrder H] (l : List H) (key : H) : Sum Nat Nat :=
  if l.length = 0 then Sum.inr 0 else bsGo l key l.length 0 l.length

/-- The inner loop of Database::relative_position (database.rs): walk the
parent heirarchy from a found index, adding each body's orbital position, and
return (Sum.inl) as soon as the relative body is reached; on fall-through,
Sum.inr carries the accumulator and the last entry variable. -/
noncomputable def rpInner {H : Type} [DecidableEq H] (db : Database H)
    (time : ℝ) (relative : H) :
    List H → Vec3 → DatabaseEntry H → Option (Sum Vec3 (Vec3 × DatabaseEntry H))
  | [], rp, entry => some (Sum.inr (rp, entry))
  | handle :: rest, rp, _ =>
    match lookupAssoc db.bodies handle with
    | none => none
    | some entry =>
      match db.position_at_time handle time with
      | none => none
      | some p =>
        if handle = relative then some (Sum.inl (Vec3.add rp p))
        else rpInner db time relative rest (Vec3.add rp p) entry

/-- The outer while-let loop of Database::relative_position (database.rs):
walk up from the origin, subtracting positions, searching the relative body's
heirarchy for each ancestor; fuel bounds the walk.  The outer Option models
panic or exhausted fuel; the inner Option is the function's Rust return value. -/
noncomputable def rpOuter {H : Type} [LinearOrder H] (db : Database H)
    (time : ℝ) (relative : H) (relative_heirarchy : List H) :
    Nat → Vec3 → DatabaseEntry H → Option (Option Vec3)
  | 0, _, _ => none
  | f + 1, rp, entry =>
    match entry.parent with
    | none => some none
    | some parent_handle =>
      match lookupAssoc db.bodies parent_handle with
      | none => none
      | some parent_entry =>
        match db.position_at_time parent_handle time with
        | none => none
        | some p =>
          match binarySearch relative_heirarchy parent_handle with
          | Sum.inl parent_relative_index =>
            match rpInner db time relative
                (relative_heirarchy.drop parent_relative_index)
                (Vec3.sub rp p) parent_entry with
            | none => none
            | some (Sum.inl result) => some (some result)
            | some (Sum.inr (rp', entry')) =>
              rpOuter db time relative relative_heirarchy f rp' entry'
          | Sum.inr _ =>
            rpOuter db time relative relative_heirarchy f (Vec3.sub rp p) parent_entry

/-- Database::relative_position (database.rs). -/
noncomputable def Database.relative_position {H : Type} [LinearOrder H]
    (fuel : Nat) (db : Database H) (origin relative : H) (time : ℝ) :
    Option (Option Vec3) :=
  match db.get_parents fuel relative with
  | none => none
  | some relative_heirarchy =>
    match db.get_entry origin with
    | none => none
    | some entry =>
      match db.position_at_time origin time with
      | none => none
      | some p =>
        let rp := Vec3.sub Vec3.zeroV p
        match binarySearch relative_heirarchy origin with
        | Sum.inl parent_relative_index =>
          match rpInner db time relative
              (relative_heirarchy.drop parent_relative_index) rp entry with
          | none => none
          | some (Sum.inl result) => some (some result)
          | some (Sum.inr (rp', entry')) =>
            rpOuter db time relative relative_heirarchy fuel rp' entry'
        | Sum.inr _ => rpOuter db time relative relative_heirarchy fuel rp entry

/- Concrete databases used to instantiate the theorems below. -/

/-- A root body of mass 4 kg. -/
def body0 : Body := ⟨4, 1, 1, 0⟩

/-- A satellite body of mass 1 kg. -/
def body1 : Body := ⟨1, 1, 1, 0⟩

/-- A circular orbit: a = 2 m, e = 0, all angles zero. -/
def orbitCirc : OrbitalElements := ⟨2, 0, 0, 0, 0, 0⟩

/-- A root entry: no parent, no orbit. -/
def entryRoot : DatabaseEntry ℕ := ⟨none, "", body0, none, 0, 1⟩

/-- An entry orbiting handle 0 on the circular orbit. -/
def entrySat : DatabaseEntry ℕ := ⟨some 0, "", body1, some orbitCirc, 0, 1⟩

/-- A two-body database: root 0 and satellite 1, ancestor chains ascending. -/
def dbW : Database ℕ := ⟨[(0, entryRoot), (1, entrySat)]⟩

/-- An entry orbiting handle 3 on the circular orbit. -/
def entrySat2 : DatabaseEntry ℕ := ⟨some 3, "", body1, some orbitCirc, 0, 1⟩

/-- An entry orbiting handle 2 on the circular orbit. -/
def entrySat1 : DatabaseEntry ℕ := ⟨some 2, "", body1, some orbitCirc, 0, 1⟩

/-- A three-body chain 3 <- 2 <- 1 whose handles are strictly descending from
root to leaf, so the parent heirarchy list [3, 2, 1] is unsorted. -/
def dbDesc : Database ℕ := ⟨[(1, entrySat1), (2, entrySat2), (3, entryRoot)]⟩

/-- The empty string, used as the display name of synthetic entries. -/
def emptyName : String := ""

/-- The orbital position of body 1 of dbW at time 0 (used to state witnesses). -/
noncomputable def pW : Vec3 := (dbW.position_at_time 1 0).getD Vec3.zeroV

/- Helper lemmas -/

/-- The normalization loop does nothing when the value does not exceed 360. -/
theorem subTurns360_of_not_gt (x : ℝ) (h : ¬ 360 < x) : subTurns360 x = x := by
  rw [subTurns360]
  exact dif_neg h

/-- 720 degrees convert to 4 pi radians. -/
theorem deg720_to_rad : (720 : ℝ) * CONVERT_DEG_TO_RAD = 4 * Real.pi := by
  unfold CONVERT_DEG_TO_RAD
  ring

/-- 4 pi radians do not exceed the loop threshold 360. -/
theorem four_pi_not_gt_360 : ¬ (360 : ℝ) < 4 * Real.pi := by
  have h := Real.pi_lt_d2
  push_neg
  nlinarith

/-- The normalization loop leaves 720 degrees at 4 pi radians. -/
theorem subTurns360_720deg : subTurns360 ((720 : ℝ) * CONVERT_DEG_TO_RAD) = 4 * Real.pi := by
  rw [deg720_to_rad]
  exact subTurns360_of_not_gt _ four_pi_not_gt_360

/-- 4 pi is not below 2 pi, so 4 pi lies outside [0, 2 pi). -/
theorem four_pi_not_lt_two_pi : ¬ (4 * Real.pi < 2 * Real.pi) := by
  have h := Real.pi_pos
  push_neg
  nlinarith

/-- C1: the angle setters with_inclination_deg, with_arg_of_periapsis_deg and
with_long_of_ascending_node_deg are claimed to store the input angle converted
to radians and reduced into [0, 2 pi).  The code converts to radians but then
compares the radian value against 360 (a degree quantity), so for the input
720 degrees each setter stores 4 pi, which is not in [0, 2 pi): the claim
fails on the code. -/
theorem angle_setters_not_normalized :
    (OrbitalElements.default.with_inclination_deg 720).inclination = 4 * Real.pi ∧
    (OrbitalElements.default.with_arg_of_periapsis_deg 720).arg_of_periapsis = 4 * Real.pi ∧
    (OrbitalElements.default.with_long_of_ascending_node_deg 720).long_of_ascending_node
      = 4 * Real.pi ∧
    ¬ (4 * Real.pi < 2 * Real.pi) := by
  refine ⟨?_, ?_, ?_, four_pi_not_lt_two_pi⟩ <;>
    simpa [OrbitalElements.with_inclination_deg, OrbitalElements.with_arg_of_periapsis_deg,
      OrbitalElements.with_long_of_ascending_node_deg] using subTurns360_720deg

/-- C2: with_mean_anomaly_deg is claimed to store the value converted to
radians and reduced into [0, 2 pi).  For the input 720 degrees the stored
mean_anomaly_at_epoch is 4 pi, outside [0, 2 pi): the claim fails on the
code (the loop compares the radian value against 360). -/
theorem mean_anomaly_not_normalized :
    ((DatabaseEntry.new Body.default emptyName : DatabaseEntry ℕ).with_mean_anomaly_deg
      720).mean_anomaly_at_epoch = 4 * Real.pi ∧
    ¬ (4 * Real.pi < 2 * Real.pi) := by
  refine ⟨?_, four_pi_not_lt_two_pi⟩
  simpa [DatabaseEntry.new, DatabaseEntry.with_mean_anomaly_deg] using subTurns360_720deg

/-- C3 counterexample: on a handle absent from the database,
absolute_position_at_time does not fail: it returns the zero vector (the
code's explicit else branch), so not every query method fails on an unknown
handle. -/
theorem absolute_position_unknown_handle :
    (Database.default ℕ).get_entry 0 = none ∧
    Database.absolute_position_at_time 1 (Database.default ℕ) 0 0 = some Vec3.zeroV :=
  ⟨rfl, rfl⟩

/-- C3 amended: on a handle absent from the database, get_entry,
position_at_mean_anomaly, position_at_time, mean_anomaly_at_time, radius_soi
and get_parents all fail (modelled as none), while absolute_position_at_time
instead returns the zero vector. -/
theorem unknown_handle_queries {H : Type} [LinearOrder H] (db : Database H)
    (h : H) (M t : ℝ) (fuel : Nat) (hnone : lookupAssoc db.bodies h = none) :
    db.get_entry h = none ∧
    db.position_at_mean_anomaly h M = none ∧
    db.position_at_time h t = none ∧
    db.mean_anomaly_at_time h t = none ∧
    db.radius_soi fuel h = none ∧
    db.get_parents fuel h = none ∧
    Database.absolute_position_at_time (fuel + 1) db h t = some Vec3.zeroV := by
  refine ⟨hnone, ?_, ?_, ?_, ?_, ?_, ?_⟩
  · unfold Database.position_at_mean_anomaly
    rw [hnone]
  · unfold Database.position_at_time
    rw [hnone]
  · unfold Database.mean_anomaly_at_time Database.get_entry
    rw [hnone]
  · unfold Database.radius_soi
    rw [hnone]
  · cases fuel with
    | zero => rfl
    | succ f =>
      unfold Database.get_parents Database.get_entry
      rw [hnone]
  · unfold Database.absolute_position_at_time
    rw [hnone]

/-- C3 amended, witness at the empty database and handle 0. -/
theorem unknown_handle_queries_witness :
    lookupAssoc (Database.default ℕ).bodies 0 = none ∧
    ((Database.default ℕ).get_entry 0 = none ∧
     (Database.default ℕ).position_at_mean_anomaly 0 0 = none ∧
     (Database.default ℕ).position_at_time 0 0 = none ∧
     (Database.default ℕ).mean_anomaly_at_time 0 0 = none ∧
     (Database.default ℕ).radius_soi 0 0 = none ∧
     (Database.default ℕ).get_parents 0 0 = none ∧
     Database.absolute_position_at_time 1 (Database.default ℕ) 0 0 = some Vec3.zeroV) :=
  ⟨rfl, unknown_handle_queries (Database.default ℕ) 0 0 0 0 rfl⟩

/-- Looking a key up after insertAssoc on that key yields the new entry. -/
theorem lookup_insert_self {H : Type} [DecidableEq H]
    (l : List (H × DatabaseEntry H)) (h : H) (e : DatabaseEntry H) :
    lookupAssoc (insertAssoc l h e) h = some e := by
  induction l with
  | nil => simp [insertAssoc, lookupAssoc]
  | cons kv rest ih =>
    obtain ⟨k, v⟩ := kv
    by_cases hk : k = h
    · simp [insertAssoc, hk, lookupAssoc]
    · simp [insertAssoc, hk, lookupAssoc, ih]

/-- Looking any other key up after insertAssoc is unchanged. -/
theorem lookup_insert_ne {H : Type} [DecidableEq H]
    (l : List (H × DatabaseEntry H)) (h h' : H) (e : DatabaseEntry H)
    (hne : h' ≠ h) :
    lookupAssoc (insertAssoc l h e) h' = lookupAssoc l h' := by
  have hne' : ¬ h = h' := fun hh => hne hh.symm
  induction l with
  | nil => simp [insertAssoc, lookupAssoc, hne']
  | cons kv rest ih =>
    obtain ⟨k, v⟩ := kv
    by_cases hk : k = h
    · subst hk
      simp [insertAssoc, lookupAssoc, hne']
    · simp [insertAssoc, hk, lookupAssoc, ih]

/-- C10: add_entry on a handle already present replaces that handle's entry
(a following get_entry returns the new entry) and leaves the entry of every
other handle unchanged. -/
theorem add_entry_replaces {H : Type} [DecidableEq H] (db : Database H)
    (h h' : H) (e : DatabaseEntry H)
    (hpresent : (db.get_entry h).isSome = true) (hne : h' ≠ h) :
    (db.add_entry h e).get_entry h = some e ∧
    (db.add_entry h e).get_entry h' = db.get_entry h' :=
  ⟨lookup_insert_self db.bodies h e, lookup_insert_ne db.bodies h h' e hne⟩

/-- C10 witness: replacing the entry of handle 0 of dbW. -/
theorem add_entry_replaces_witness :
    (dbW.get_entry 0).isSome = true ∧ (1 : ℕ) ≠ 0 ∧
    ((dbW.add_entry 0 entrySat).get_entry 0 = some entrySat ∧
     (dbW.add_entry 0 entrySat).get_entry 1 = dbW.get_entry 1) :=
  ⟨rfl, by decide, add_entry_replaces dbW 0 1 entrySat rfl (by decide)⟩

/- Rotations preserve the Euclidean norm. -/

/-- The squared norm is nonnegative. -/
theorem normSq_nonneg (v : Vec3) : 0 ≤ v.normSq := by
  unfold Vec3.normSq
  positivity

/-- The squared norm is the square of the norm. -/
theorem normSq_eq_sq_norm (v : Vec3) : v.normSq = v.norm ^ 2 := by
  unfold Vec3.norm
  rw [Real.sq_sqrt (normSq_nonneg v)]

/-- Rodrigues rotation around a unit axis preserves the squared norm. -/
theorem normSq_rodrigues (k v : Vec3) (angle : ℝ) (hk : k.normSq = 1) :
    (rodrigues k angle v).normSq = v.normSq := by
  have e1 : (rodrigues k angle v).normSq =
      (Real.cos angle) ^ 2 * v.normSq
      + (Real.sin angle) ^ 2 * (k.normSq * v.normSq - (Vec3.dot k v) ^ 2)
      + ((1 - Real.cos angle) * Vec3.dot k v) ^ 2 * k.normSq
      + 2 * (Real.cos angle) * ((1 - Real.cos angle) * Vec3.dot k v) * (Vec3.dot k v) := by
    unfold rodrigues Vec3.normSq Vec3.add Vec3.smul Vec3.cross Vec3.dot
    ring
  have hs : (Real.sin angle) ^ 2 = 1 - (Real.cos angle) ^ 2 := by
    have h := Real.sin_sq_add_cos_sq angle
    linarith
  rw [e1, hk, hs]
  ring

/-- Rotation3::new preserves the norm, for any scaled-axis argument. -/
theorem norm_rotation (w v : Vec3) : (Rotation3.new w v).norm = v.norm := by
  unfold Rotation3.new
  by_cases h : w.norm = 0
  · rw [if_pos h]
  · rw [if_neg h]
    have hk : (Vec3.smul (w.norm)⁻¹ w).normSq = 1 := by
      have h1 : (Vec3.smul (w.norm)⁻¹ w).normSq = ((w.norm)⁻¹) ^ 2 * w.normSq := by
        unfold Vec3.smul Vec3.normSq
        ring
      rw [h1, normSq_eq_sq_norm w]
      field_simp
    show Real.sqrt (rodrigues (Vec3.smul (w.norm)⁻¹ w) w.norm v).normSq
      = Real.sqrt v.normSq
    rw [normSq_rodrigues _ _ _ hk]

/-- Scalar multiplication scales the norm by the absolute value. -/
theorem norm_smul_vec (c : ℝ) (v : Vec3) : (Vec3.smul c v).norm = |c| * v.norm := by
  unfold Vec3.norm
  have h1 : (Vec3.smul c v).normSq = c ^ 2 * v.normSq := by
    unfold Vec3.smul Vec3.normSq
    ring
  rw [h1, Real.sqrt_mul (sq_nonneg c), Real.sqrt_sq_eq_abs]

/-- The reference x axis is a unit vector. -/
theorem norm_x_axis : Vec3.norm ⟨1, 0, 0⟩ = 1 := by
  unfold Vec3.norm Vec3.normSq
  norm_num

/-- The magnitude of position_at_mean_anomaly is the absolute value of the
orbital radius r = a (1 - e^2) / (1 + e cos nu). -/
theorem position_magnitude_core {H : Type} [DecidableEq H] (db : Database H)
    (h ph : H) (M : ℝ) (entry parent : DatabaseEntry H) (orbit : OrbitalElements)
    (he : lookupAssoc db.bodies h = some entry)
    (ho : entry.orbit = some orbit)
    (hp : entry.parent = some ph)
    (hpe : lookupAssoc db.bodies ph = some parent) :
    Option.map Vec3.norm (db.position_at_mean_anomaly h M) =
      some (|orbit.semimajor_axis * (1 - orbit.eccentricity ^ 2) /
        (1 + orbit.eccentricity * Real.cos (trueAnomaly orbit.eccentricity M))|) := by
  unfold Database.position_at_mean_anomaly
  simp only [he, ho, hp, hpe, Option.map]
  rw [norm_smul_vec, norm_rotation, norm_rotation, norm_rotation, norm_x_axis, mul_one]

/-- C4: for an entry with an orbit (entry and parent present, eccentricity in
[0, 1) and nonnegative semimajor axis as the data model requires), the vector
returned by position_at_mean_anomaly has magnitude
a (1 - e^2) / (1 + e cos nu) with nu = M + 2 e sin M + 1.25 e^2 sin (2 M);
for an entry with no orbit it returns the zero vector. -/
theorem position_at_mean_anomaly_spec {H : Type} [DecidableEq H]
    (db : Database H) (h ph : H) (M : ℝ) (entry parent : DatabaseEntry H)
    (orbit : OrbitalElements) :
    (lookupAssoc db.bodies h = some entry → entry.orbit = some orbit →
     entry.parent = some ph → lookupAssoc db.bodies ph = some parent →
     0 ≤ orbit.eccentricity → orbit.eccentricity < 1 →
     0 ≤ orbit.semimajor_axis →
     Option.map Vec3.norm (db.position_at_mean_anomaly h M) =
       some (orbit.semimajor_axis * (1 - orbit.eccentricity ^ 2) /
         (1 + orbit.eccentricity * Real.cos (trueAnomaly orbit.eccentricity M)))) ∧
    (lookupAssoc db.bodies h = some entry → entry.orbit = none →
     db.position_at_mean_anomaly h M = some Vec3.zeroV) := by
  constructor
  · intro he ho hp hpe he0 he1 ha
    rw [position_magnitude_core db h ph M entry parent orbit he ho hp hpe]
    congr 1
    apply abs_of_nonneg
    apply div_nonneg
    · have h2 : 0 ≤ 1 - orbit.eccentricity ^ 2 := by nlinarith
      exact mul_nonneg ha h2
    · have hcos := Real.neg_one_le_cos (trueAnomaly orbit.eccentricity M)
      nlinarith [mul_nonneg he0
        (by linarith : (0:ℝ) ≤ 1 + Real.cos (trueAnomaly orbit.eccentricity M))]
  · intro he ho
    unfold Database.position_at_mean_anomaly
    simp only [he, ho]

/-- C4 witness: body 1 of dbW at mean anomaly 0. -/
theorem position_at_mean_anomaly_spec_witness :
    Option.map Vec3.norm (dbW.position_at_mean_anomaly 1 0) =
      some (orbitCirc.semimajor_axis * (1 - orbitCirc.eccentricity ^ 2) /
        (1 + orbitCirc.eccentricity * Real.cos (trueAnomaly orbitCirc.eccentricity 0))) :=
  (position_at_mean_anomaly_spec dbW 1 0 0 entrySat entryRoot orbitCirc).1
    rfl rfl rfl rfl (by norm_num [orbitCirc]) (by norm_num [orbitCirc])
    (by norm_num [orbitCirc])

/-- C5: for an entry on a circular orbit (eccentricity 0) with positive
semimajor axis a, the returned vector has magnitude exactly a, for every mean
anomaly. -/
theorem position_circular_spec {H : Type} [DecidableEq H]
    (db : Database H) (h ph : H) (M : ℝ) (entry parent : DatabaseEntry H)
    (orbit : OrbitalElements)
    (he : lookupAssoc db.bodies h = some entry)
    (ho : entry.orbit = some orbit)
    (hp : entry.parent = some ph)
    (hpe : lookupAssoc db.bodies ph = some parent)
    (hecc : orbit.eccentricity = 0)
    (ha : 0 < orbit.semimajor_axis) :
    Option.map Vec3.norm (db.position_at_mean_anomaly h M) =
      some orbit.semimajor_axis := by
  rw [position_magnitude_core db h ph M entry parent orbit he ho hp hpe, hecc]
  congr 1
  rw [show orbit.semimajor_axis * (1 - (0:ℝ) ^ 2) / (1 + 0 * Real.cos (trueAnomaly 0 M))
      = orbit.semimajor_axis by ring_nf]
  exact abs_of_pos ha

/-- C5 witness: body 1 of dbW (a = 2, e = 0) at mean anomaly 3. -/
theorem position_circular_spec_witness :
    Option.map Vec3.norm (dbW.position_at_mean_anomaly 1 3) =
      some orbitCirc.semimajor_axis :=
  position_circular_spec dbW 1 0 3 entrySat entryRoot orbitCirc
    rfl rfl rfl rfl rfl (by norm_num [orbitCirc])

/-- C7: for an entry with a parent, mean_anomaly_at_time returns
mean_anomaly_at_epoch + n * t with mean motion n = sqrt(parent.gm / a^3),
built from the parent entry's gravitational parameter and this orbit's
semimajor axis; for a root (no parent) it returns 0. -/
theorem mean_anomaly_at_time_spec {H : Type} [DecidableEq H] (db : Database H)
    (h ph : H) (t : ℝ) (entry parent : DatabaseEntry H) (orbit : OrbitalElements) :
    (db.get_entry h = some entry → entry.parent = some ph →
     entry.orbit = some orbit → db.get_entry ph = some parent →
     db.mean_anomaly_at_time h t =
       some (entry.mean_anomaly_at_epoch +
         Real.sqrt (parent.gm / orbit.semimajor_axis ^ 3) * t)) ∧
    (db.get_entry h = some entry → entry.parent = none →
     db.mean_anomaly_at_time h t = some 0) := by
  constructor
  · intro he hp ho hpe
    unfold Database.mean_anomaly_at_time
    simp only [he, hp, ho, hpe]
  · intro he hp
    unfold Database.mean_anomaly_at_time
    simp only [he, hp]

/-- C7 witness: body 1 of dbW (parent 0) at time 7, and the root 0. -/
theorem mean_anomaly_at_time_spec_witness :
    dbW.mean_anomaly_at_time 1 7 =
      some (entrySat.mean_anomaly_at_epoch +
        Real.sqrt (entryRoot.gm / orbitCirc.semimajor_axis ^ 3) * 7) ∧
    dbW.mean_anomaly_at_time 0 7 = some 0 :=
  ⟨(mean_anomaly_at_time_spec dbW 1 0 7 entrySat entryRoot orbitCirc).1
      rfl rfl rfl rfl,
   (mean_anomaly_at_time_spec dbW 0 0 7 entryRoot entryRoot orbitCirc).2
      rfl rfl⟩

/-- C8: absolute_position_at_time of an entry with a parent is its own
position_at_time plus the parent's absolute position; for a root entry (no
parent, no orbit) it is the zero vector. -/
theorem absolute_position_spec {H : Type} [DecidableEq H] (db : Database H)
    (h ph : H) (t : ℝ) (fuel : Nat) (entry : DatabaseEntry H) (p pp : Vec3) :
    (lookupAssoc db.bodies h = some entry → entry.parent = some ph →
     db.position_at_time h t = some p →
     Database.absolute_position_at_time fuel db ph t = some pp →
     Database.absolute_position_at_time (fuel + 1) db h t = some (Vec3.add p pp)) ∧
    (lookupAssoc db.bodies h = some entry → entry.parent = none →
     entry.orbit = none →
     Database.absolute_position_at_time (fuel + 1) db h t = some Vec3.zeroV) := by
  constructor
  · intro he hp hpos habs
    unfold Database.absolute_position_at_time
    simp only [he, hp, hpos, habs]
  · intro he hp ho
    unfold Database.absolute_position_at_time Database.position_at_time
    simp only [he, hp, ho, Option.isSome_none, Bool.false_eq_true, if_false]
    have hz : Vec3.add Vec3.zeroV Vec3.zeroV = Vec3.zeroV := by
      unfold Vec3.add Vec3.zeroV
      norm_num
    rw [hz]

/-- C8 witness: satellite 1 of dbW over its root parent 0, and the root 0. -/
theorem absolute_position_spec_witness :
    Database.absolute_position_at_time 2 dbW 1 0 =
      some (Vec3.add pW (Vec3.add Vec3.zeroV Vec3.zeroV)) ∧
    Database.absolute_position_at_time 1 dbW 0 0 = some Vec3.zeroV :=
  ⟨(absolute_position_spec dbW 1 0 0 1 entrySat pW
      (Vec3.add Vec3.zeroV Vec3.zeroV)).1 rfl rfl rfl rfl,
   (absolute_position_spec dbW 0 0 0 0 entryRoot pW pW).2 rfl rfl rfl⟩

/-- C9: radius_soi of a body with a parent (and an orbit, as the data model
couples them) is a * (combined mass / parent body's own mass)^(2/5), where
the combined mass recursively includes satellite masses; for a root it is
distance_of_gravity applied to the fixed threshold gravity 0.0000005. -/
theorem radius_soi_spec {H : Type} [LinearOrder H] (fuel : Nat)
    (db : Database H) (h ph : H) (ob parent_body : DatabaseEntry H)
    (orbit : OrbitalElements) (m : ℝ) :
    (lookupAssoc db.bodies h = some ob →
     db.get_combined_mass_kg fuel h = some m →
     ob.orbit = some orbit → ob.parent = some ph →
     lookupAssoc db.bodies ph = some parent_body →
     db.radius_soi fuel h =
       some (orbit.semimajor_axis *
         Real.rpow (m / parent_body.info.mass_kg) (2 / 5))) ∧
    (lookupAssoc db.bodies h = some ob →
     db.get_combined_mass_kg fuel h = some m →
     ob.orbit = none → ob.parent = none →
     db.radius_soi fuel h = some (ob.info.distance_of_gravity 0.0000005)) := by
  constructor
  · intro he hm ho hp hpe
    unfold Database.radius_soi
    simp only [he, hm, ho, hp, hpe]
  · intro he hm ho hp
    unfold Database.radius_soi
    simp only [he, hm, ho]

/-- C9 witness: satellite 1 of dbW (combined mass 1, parent mass 4) and the
root 0 (combined mass 4 + 1). -/
theorem radius_soi_spec_witness :
    dbW.radius_soi 5 1 =
      some (orbitCirc.semimajor_axis *
        Real.rpow ((1 : ℝ) / body0.mass_kg) (2 / 5)) ∧
    dbW.radius_soi 5 0 = some (entryRoot.info.distance_of_gravity 0.0000005) :=
  ⟨(radius_soi_spec 5 dbW 1 0 entrySat entryRoot orbitCirc 1).1
      rfl rfl rfl rfl rfl,
   (radius_soi_spec 5 dbW 0 0 entryRoot entryRoot orbitCirc ((4 : ℝ) + 1)).2
      rfl rfl rfl rfl⟩

/- Binary search on the sorted parent heirarchy. -/

/-- A successful get_parents chain ends in the queried handle. -/
theorem get_parents_concat {H : Type} [DecidableEq H] (fuel : Nat)
    (db : Database H) (b : H) (chain : List H)
    (hch : db.get_parents fuel b = some chain) :
    ∃ l, chain = l ++ [b] := by
  cases fuel with
  | zero => simp [Database.get_parents] at hch
  | succ f =>
    unfold Database.get_parents at hch
    split at hch
    · simp at hch
    · split at hch
      · exact ⟨[], by simpa using hch.symm⟩
      · split at hch
        · simp at hch
        · exact ⟨_, by simpa using hch.symm⟩

/-- On a strictly sorted list, the binary-search loop run with fuel bounded
below by the size finds the index holding the key. -/
theorem bsGo_finds {H : Type} [LinearOrder H] (l : List H) (key : H)
    (hsort : List.Sorted (fun a b => a < b) l) (i : Nat) (hi : i < l.length)
    (hkey : l[i] = key) :
    ∀ f base size, 1 ≤ size → size ≤ f + 1 → base + size ≤ l.length →
      base ≤ i → i < base + size → bsGo l key f base size = Sum.inl i := by
  have hrel : ∀ (a b : Nat) (ha : a < l.length) (hb : b < l.length),
      a < b → l[a] < l[b] :=
    fun a b ha hb hab => (List.pairwise_iff_getElem.mp hsort) a b ha hb hab
  have hmono : ∀ (a b : Nat) (ha : a < l.length) (hb : b < l.length),
      a ≤ b → l[a] ≤ l[b] := by
    intro a b ha hb hab
    rcases Nat.eq_or_lt_of_le hab with heq | hlt
    · subst heq
      exact le_refl _
    · exact le_of_lt (hrel a b ha hb hlt)
  intro f
  induction f with
  | zero =>
    intro base size h1 h2 hlen hbi hib
    have hbase : base = i := by omega
    subst hbase
    have hg : l.getD base key = key := by
      rw [List.getD_eq_getElem?_getD, List.getElem?_eq_getElem hi, Option.getD_some, hkey]
    unfold bsGo
    simp only [hg, if_true]
  | succ f ih =>
    intro base size h1 h2 hlen hbi hib
    unfold bsGo
    by_cases hs : 1 < size
    · rw [if_pos hs]
      have hmidlt : base + size / 2 < l.length := by omega
      have hgd : l.getD (base + size / 2) key = l[base + size / 2] := by
        rw [List.getD_eq_getElem?_getD, List.getElem?_eq_getElem hmidlt, Option.getD_some]
      by_cases hcmp : key < l.getD (base + size / 2) key
      · rw [if_pos hcmp]
        rw [hgd] at hcmp
        have hi_lt : i < base + size / 2 := by
          by_contra hge
          push_neg at hge
          have hle := hmono (base + size / 2) i hmidlt hi hge
          rw [hkey] at hle
          exact absurd hcmp (not_lt.mpr hle)
        exact ih base (size - size / 2) (by omega) (by omega) (by omega) hbi (by omega)
      · rw [if_neg hcmp]
        rw [hgd] at hcmp
        push_neg at hcmp
        have hmid_le : base + size / 2 ≤ i := by
          by_contra hlt
          push_neg at hlt
          have hlt2 := hrel i (base + size / 2) hi hmidlt hlt
          rw [hkey] at hlt2
          exact absurd hcmp (not_le.mpr hlt2)
        exact ih (base + size / 2) (size - size / 2) (by omega) (by omega) (by omega)
          hmid_le (by omega)
    · rw [if_neg hs]
      have hbase : base = i := by omega
      subst hbase
      have hg : l.getD base key = key := by
        rw [List.getD_eq_getElem?_getD, List.getElem?_eq_getElem hi, Option.getD_some, hkey]
      simp only [hg, if_true]

/-- Binary search for the last element of a strictly sorted nonempty list
succeeds at the last index. -/
theorem binarySearch_concat {H : Type} [LinearOrder H] (l : List H) (key : H)
    (hsort : List.Sorted (fun a b => a < b) (l ++ [key])) :
    binarySearch (l ++ [key]) key = Sum.inl l.length := by
  have hi : l.length < (l ++ [key]).length := by simp
  have hkey : (l ++ [key])[l.length] = key := by
    have h2 := List.getElem?_concat_length l key
    rw [List.getElem?_eq_getElem hi] at h2
    exact Option.some.inj h2
  unfold binarySearch
  rw [if_neg (by simp)]
  exact bsGo_finds (l ++ [key]) key hsort l.length hi hkey
    ((l ++ [key]).length) 0 ((l ++ [key]).length)
    (by simp) (by omega) (by omega) (by omega) (by simp)

/-- Subtracting a vector from zero and adding it back gives zero. -/
theorem sub_add_cancel_vec (p : Vec3) :
    Vec3.add (Vec3.sub Vec3.zeroV p) p = Vec3.zeroV := by
  cases p
  unfold Vec3.add Vec3.sub Vec3.zeroV
  simp only [Vec3.mk.injEq]
  refine ⟨by ring, by ring, by ring⟩

/-- C6 counterexample: in dbDesc the ancestor chain of handle 1 is [3, 2, 1],
which is not in ascending handle order, so every binary search performed by
relative_position misses; the walk reaches the root and the code returns
None (modelled as some none) although handle 1 is present: the claim that
relative_position(a, a, t) is Some of the zero vector for every present
handle fails. -/
theorem relative_position_self_not_found :
    (dbDesc.get_entry 1).isSome = true ∧
    dbDesc.relative_position 6 1 1 0 = some none :=
  ⟨rfl, rfl⟩

/-- C6 amended: for a handle present in the database whose get_parents chain
is strictly ascending in handle order (as in the seeded solar-system data),
relative_position(a, a, t) returns Some of the zero vector. -/
theorem relative_position_self {H : Type} [LinearOrder H] (fuel : Nat)
    (db : Database H) (a : H) (t : ℝ) (chain : List H) (e : DatabaseEntry H)
    (pa : Vec3)
    (hch : db.get_parents fuel a = some chain)
    (hsort : List.Sorted (fun x y => x < y) chain)
    (he : db.get_entry a = some e)
    (hpa : db.position_at_time a t = some pa) :
    db.relative_position fuel a a t = some (some Vec3.zeroV) := by
  obtain ⟨l, rfl⟩ := get_parents_concat fuel db a _ hch
  have he' : lookupAssoc db.bodies a = some e := he
  have hbs : binarySearch (l ++ [a]) a = Sum.inl l.length := binarySearch_concat l a hsort
  have hdrop : (l ++ [a]).drop l.length = [a] := List.drop_left l [a]
  have hinner : rpInner db t a [a] (Vec3.sub Vec3.zeroV pa) e =
      some (Sum.inl (Vec3.add (Vec3.sub Vec3.zeroV pa) pa)) := by
    unfold rpInner
    simp [he', hpa]
  unfold Database.relative_position
  simp only [hch, he, hpa, hbs, hdrop, hinner, sub_add_cancel_vec]

/-- C6 amended, witness: dbW has the ascending chain [0, 1] for handle 1. -/
theorem relative_position_self_witness :
    dbW.relative_position 5 1 1 0 = some (some Vec3.zeroV) :=
  relative_position_self 5 dbW 1 0 [0, 1] entrySat _ rfl (by decide) rfl rfl

end GameOrbits
